import Mathlib

/-!
Verification of the mindbot long-term memory subsystem against its
natural-language specification.

The TypeScript sources are shallowly embedded: JS strings are modelled
as `List Char` (sequences of UTF-16 code units); pure functions become
Lean functions; filesystem and LLM effects become explicit state passing
and oracle parameters.  Every definition mirrors a function of the
repository (file and symbol are named in its doc comment).
-/

set_option maxRecDepth 4000

namespace Mindbot

/-- JS strings modelled as lists of characters. -/
abbrev Str := List Char

/-- The JS `\s` whitespace class, restricted to the code points the
repository actually emits (space, tab, newline, carriage return,
vertical tab, form feed). -/
def isWsChar (c : Char) : Bool :=
  c = ' ' || c = '\t' || c = '\n' || c = '\r' || c = '\x0b' || c = '\x0c'

/-- JS `String.prototype.trim`. -/
def jsTrim (s : Str) : Str :=
  ((s.dropWhile isWsChar).reverse.dropWhile isWsChar).reverse

/-- Convenience: a Lean string literal as a `Str`. -/
def lit (s : String) : Str := s.toList

/-! ## SubconsciousService.truncateRepetitive
(src/src/services/memory/SubconsciousService.ts lines 36-47)

```ts
private truncateRepetitive(text: string): string {
  for (let len = Math.floor(text.length / 2); len >= 3; len--) {
    for (let i = 0; i <= text.length - 2 * len; i++) {
      const chunk = text.substring(i, i + len);
      const next = text.substring(i + len, i + 2 * len);
      if (chunk === next && chunk.trim().length >= 3) {
        return text.substring(0, i + len);
      }
    }
  }
  return text;
}
```
-/

/-- Inner loop of `truncateRepetitive`: for a fixed chunk length `len`,
the first index `i` (ascending, `i ≤ n - 2·len`) at which the chunk
`s[i..i+len)` is immediately repeated and has trimmed length ≥ 3. -/
def truncHit (s : Str) (len : Nat) : Option Nat :=
  if 2 * len ≤ s.length then
    (List.range (s.length - 2 * len + 1)).find? (fun i =>
      ((s.drop i).take len == (s.drop (i + len)).take len) &&
      (3 ≤ (jsTrim ((s.drop i).take len)).length))
  else
    none

/-- The descending sequence of chunk lengths `⌊n/2⌋, …, 3` scanned by the
outer loop of `truncateRepetitive`. -/
def lensDescending (n : Nat) : List Nat :=
  ((List.range (n / 2 + 1)).reverse).filter (fun len => 3 ≤ len)

/-- `SubconsciousService.truncateRepetitive`: truncate at the first
immediate verbatim repetition found (longest chunk lengths first). -/
def truncateRepetitive (s : Str) : Str :=
  match (lensDescending s.length).findSome? (fun len =>
      (truncHit s len).map (fun i => i + len)) with
  | some k => s.take k
  | none => s

/-- Whatever `truncateRepetitive` returns is an initial segment of its
input. -/
theorem truncateRepetitive_take (s : Str) :
    ∃ t, truncateRepetitive s ++ t = s := by
  unfold truncateRepetitive
  cases h : (lensDescending s.length).findSome? (fun len =>
      (truncHit s len).map (fun i => i + len)) with
  | none => exact ⟨[], by simp⟩
  | some k => exact ⟨s.drop k, by simp⟩

/-! ## ConsolidationService.isHeartbeatMessage
(src/unnamed/part_001 lines 27-31)

```ts
private isHeartbeatMessage(text: string): boolean {
  const isPrompt = text.includes("Read HEARTBEAT.md") && text.includes("HEARTBEAT_OK");
  const isResponse = text.trim() === "HEARTBEAT_OK";
  return isPrompt || isResponse;
}
```
-/

/-- JS `String.prototype.includes`. -/
def jsIncludes (s sub : Str) : Bool := decide (sub <:+: s)

/-- `ConsolidationService.isHeartbeatMessage`. -/
def isHeartbeatMessage (text : Str) : Bool :=
  (jsIncludes text (lit "Read HEARTBEAT.md") && jsIncludes text (lit "HEARTBEAT_OK"))
    || (jsTrim text == lit "HEARTBEAT_OK")

/-- The spec's characterization of a heartbeat message agrees with the
boolean test in the code. -/
theorem isHeartbeatMessage_iff (text : Str) :
    isHeartbeatMessage text = true ↔
      ((lit "Read HEARTBEAT.md" <:+: text ∧ lit "HEARTBEAT_OK" <:+: text) ∨
        jsTrim text = lit "HEARTBEAT_OK") := by
  simp [isHeartbeatMessage, jsIncludes]

/-! ## ConsolidationService pending-episode log
(src/unnamed/part_001 lines 260-307)

The two files are modelled as in-memory contents: the status file is
`none` when missing or malformed (both read back as `{messages: 0,
tokens: 0}`), the log file is `none` when missing.  `estimateTokens`
comes from an external package, so it is a parameter of the model;
the current ISO timestamp string is likewise a parameter.
-/

/-- Contents of `.pending-consolidation-status`. -/
structure PendingStatus where
  messages : Nat
  tokens : Nat
deriving DecidableEq, Repr

/-- The pending-log file pair in the memory directory. -/
structure PendingFiles where
  statusFile : Option PendingStatus
  logFile : Option Str
deriving DecidableEq, Repr

/-- `ConsolidationService.getPendingStatus`: `{0,0}` on missing or
malformed status file. -/
def getPendingStatus (f : PendingFiles) : PendingStatus :=
  f.statusFile.getD ⟨0, 0⟩

/-- The log entry `` `[${timestamp}] ${text}\n---\n` `` appended by
`trackPendingEpisode`. -/
def pendingEntry (nowIso text : Str) : Str :=
  lit "[" ++ nowIso ++ lit "] " ++ text ++ lit "\n---\n"

/-- `ConsolidationService.trackPendingEpisode`: heartbeats are dropped;
otherwise the entry is appended to the log and the status counters are
bumped. -/
def trackPendingEpisode (est : Str → Nat) (nowIso : Str)
    (f : PendingFiles) (text : Str) : PendingFiles :=
  if isHeartbeatMessage text then f
  else
    let status := getPendingStatus f
    { statusFile := some ⟨status.messages + 1, status.tokens + est text⟩,
      logFile := some ((f.logFile.getD []) ++ pendingEntry nowIso text) }

/-- `ConsolidationService.resetPendingStatus`: status back to zero, log
unlinked. -/
def resetPendingStatus (_f : PendingFiles) : PendingFiles :=
  { statusFile := some ⟨0, 0⟩, logFile := none }

/-- C9: tracking a heartbeat message (one containing both
`"Read HEARTBEAT.md"` and `"HEARTBEAT_OK"`, or trimming to exactly
`"HEARTBEAT_OK"`) changes neither the status nor the log; tracking any
other message appends exactly one `[iso] text\n---\n` entry, increments
the message counter, and adds the message's token estimate. -/
theorem trackPendingEpisode_spec (est : Str → Nat) (nowIso : Str)
    (f : PendingFiles) (m : Str) :
    (((lit "Read HEARTBEAT.md" <:+: m ∧ lit "HEARTBEAT_OK" <:+: m) ∨
        jsTrim m = lit "HEARTBEAT_OK") →
      trackPendingEpisode est nowIso f m = f) ∧
    (¬ ((lit "Read HEARTBEAT.md" <:+: m ∧ lit "HEARTBEAT_OK" <:+: m) ∨
        jsTrim m = lit "HEARTBEAT_OK") →
      (trackPendingEpisode est nowIso f m).logFile =
        some ((f.logFile.getD []) ++ pendingEntry nowIso m) ∧
      (trackPendingEpisode est nowIso f m).statusFile =
        some ⟨(getPendingStatus f).messages + 1,
              (getPendingStatus f).tokens + est m⟩) := by
  constructor
  · intro h
    have hb : isHeartbeatMessage m = true := (isHeartbeatMessage_iff m).mpr h
    simp [trackPendingEpisode, hb]
  · intro h
    have hb : isHeartbeatMessage m = false := by
      cases heq : isHeartbeatMessage m with
      | false => rfl
      | true => exact absurd ((isHeartbeatMessage_iff m).mp heq) h
    simp [trackPendingEpisode, hb]

/-- C9 witness: concrete heartbeat `"HEARTBEAT_OK"` is a no-op on a
concrete state; concrete message `"hola"` appends one entry and bumps
the counters (with token estimate = length). -/
theorem trackPendingEpisode_spec_witness :
    trackPendingEpisode List.length (lit "2026-01-01T00:00:00.000Z")
        ⟨some ⟨2, 7⟩, some (lit "old")⟩ (lit "  HEARTBEAT_OK ") =
      ⟨some ⟨2, 7⟩, some (lit "old")⟩ ∧
    (trackPendingEpisode List.length (lit "2026-01-01T00:00:00.000Z")
        ⟨some ⟨2, 7⟩, some (lit "old")⟩ (lit "hola")).statusFile =
      some ⟨3, 11⟩ := by
  refine ⟨(trackPendingEpisode_spec List.length (lit "2026-01-01T00:00:00.000Z")
      ⟨some ⟨2, 7⟩, some (lit "old")⟩ (lit "  HEARTBEAT_OK ")).1 (by decide), ?_⟩
  have h := (trackPendingEpisode_spec List.length (lit "2026-01-01T00:00:00.000Z")
      ⟨some ⟨2, 7⟩, some (lit "old")⟩ (lit "hola")).2 (by decide)
  exact h.2.trans (by decide)

/-! ## Retrieval results

`GraphService.MemoryResult` (the concrete type lives outside src/; the
core only reads the fields below, duck-typed).  Timestamps are kept as
the raw strings the code hands to `new Date(...)`; date parsing itself
is a JS builtin, so it enters the model as a parameter
`parseDate : Str → Option Int` (`none` = `NaN`, `some t` = epoch ms).
-/

/-- The nested `r.message` object some adapters return. -/
structure EmbMsg where
  content : Option Str := none
  uuid : Option Str := none
  created_at : Option Str := none
  createdAt : Option Str := none
deriving DecidableEq, Repr

/-- A duck-typed retrieval result (`_sourceQuery` ↦ `sourceQuery`,
`_boosted` ↦ `boosted`). -/
structure MemoryResult where
  message : Option EmbMsg := none
  text : Option Str := none
  content : Option Str := none
  timestamp : Option Str := none
  uuid : Option Str := none
  sourceQuery : Option Str := none
  boosted : Bool := false
deriving DecidableEq, Repr

/-- JS `a || b` on string-or-undefined values: an empty (falsy) or
missing left operand falls through to the right. -/
def jsOrS (a b : Option Str) : Option Str :=
  match a with
  | some s => if s.isEmpty then b else some s
  | none => b

/-- `r.message?.content || r.text || r.content || ""` as used by both
`applyMemoryHorizon` and the selection loop of `getFlashback`. -/
def resContent (r : MemoryResult) : Str :=
  (jsOrS (jsOrS (r.message.bind (·.content)) r.text) r.content).getD []

/-! ## SubconsciousService.applyMemoryHorizon
(src/src/services/memory/SubconsciousService.ts lines 193-237)

The two content regexes are embedded directly:
`/(?:Ocurrido el|memory log for|FECHA:|DATE:)\s*(\d{4}-\d{2}-\d{2})/i`
and `/\[TIMESTAMP:([^\]]+)\]/`.
-/

/-- Lower-case a JS string (`/i` flag). -/
def lcStr (s : Str) : Str := s.map Char.toLower

/-- Match `\d{4}-\d{2}-\d{2}` at the start of `s`, returning the ten
matched characters. -/
def matchDate10 : Str → Option Str
  | a :: b :: c :: d :: '-' :: e :: f :: '-' :: g :: h :: _ =>
    if a.isDigit && b.isDigit && c.isDigit && d.isDigit &&
        e.isDigit && f.isDigit && g.isDigit && h.isDigit then
      some [a, b, c, d, '-', e, f, '-', g, h]
    else none
  | _ => none

/-- The four (case-insensitive) date-tag alternatives of the horizon
regex.  Their first letters differ, so at most one can match at a
position. -/
def dateTagAlts : List Str :=
  [lit "ocurrido el", lit "memory log for", lit "fecha:", lit "date:"]

/-- Try the full date-tag regex anchored at the start of `s`: one of the
alternatives, then `\s*`, then `\d{4}-\d{2}-\d{2}` (the capture). -/
def dateTagAt (s : Str) : Option Str :=
  dateTagAlts.findSome? (fun alt =>
    if decide (alt <+: lcStr s) then
      matchDate10 ((s.drop alt.length).dropWhile isWsChar)
    else none)

/-- Leftmost match of the date-tag regex in `s` (capture group 1). -/
def findDateTag : Str → Option Str
  | [] => none
  | c :: rest =>
    match dateTagAt (c :: rest) with
    | some d => some d
    | none => findDateTag rest

/-- Try `\[TIMESTAMP:([^\]]+)\]` anchored at the start of `s`. -/
def timestampTagAt (s : Str) : Option Str :=
  if decide (lit "[TIMESTAMP:" <+: s) then
    let rest := s.drop 11
    let cap := rest.takeWhile (fun c => c ≠ ']')
    if 1 ≤ cap.length && (rest.drop cap.length).head? == some ']' then
      some cap
    else none
  else none

/-- Leftmost match of `\[TIMESTAMP:([^\]]+)\]` in `s` (capture). -/
def findTimestampTag : Str → Option Str
  | [] => none
  | c :: rest =>
    match timestampTagAt (c :: rest) with
    | some t => some t
    | none => findTimestampTag rest

/-- The effective timestamp string `applyMemoryHorizon` resolves for a
result: the date tag in the content, else the `[TIMESTAMP:...]` tag,
else `r.message?.created_at || r.message?.createdAt || r.timestamp`. -/
def horizonTimestamp (r : MemoryResult) : Option Str :=
  let content := resContent r
  match findDateTag content with
  | some d => some d
  | none =>
    match findTimestampTag content with
    | some t => some t
    | none =>
      jsOrS (jsOrS (r.message.bind (·.created_at)) (r.message.bind (·.createdAt)))
        r.timestamp

/-- The filter predicate of `applyMemoryHorizon` for one result, given
the parsed threshold `oldest` (epoch ms). -/
def horizonKeep (parseDate : Str → Option Int) (oldest : Int)
    (r : MemoryResult) : Bool :=
  match horizonTimestamp r with
  | none => true
  | some ts =>
    if ts.isEmpty then true
    else
      match parseDate ts with
      | none => true
      | some t => t < oldest

/-- `SubconsciousService.applyMemoryHorizon`: with no
`oldestContextTimestamp` every result is kept; otherwise results whose
effective timestamp parses to `≥ oldest` are dropped. -/
def applyMemoryHorizon (parseDate : Str → Option Int)
    (results : List MemoryResult) (oldest : Option Int) : List MemoryResult :=
  match oldest with
  | none => results
  | some t => results.filter (horizonKeep parseDate t)

/-- C7: a result survives the Memory Horizon iff its effective timestamp
(date tag, else `[TIMESTAMP:...]` tag, else its own timestamp fields) is
strictly earlier than `oldestContextTimestamp`, or is missing, empty, or
unparseable (fail open); with no threshold every result is kept. -/
theorem applyMemoryHorizon_spec (parseDate : Str → Option Int)
    (results : List MemoryResult) :
    applyMemoryHorizon parseDate results none = results ∧
    ∀ t r, r ∈ applyMemoryHorizon parseDate results (some t) ↔
      r ∈ results ∧
        (horizonTimestamp r = none ∨
         horizonTimestamp r = some [] ∨
         (∃ ts, horizonTimestamp r = some ts ∧ parseDate ts = none) ∨
         (∃ ts v, horizonTimestamp r = some ts ∧ parseDate ts = some v ∧
            v < t)) := by
  refine ⟨rfl, fun t r => ?_⟩
  rw [applyMemoryHorizon, List.mem_filter]
  refine and_congr_right fun _ => ?_
  unfold horizonKeep
  cases hts : horizonTimestamp r with
  | none => simp
  | some ts =>
    by_cases hemp : ts.isEmpty
    · simp only [hemp, if_true]
      simp [List.isEmpty_iff.mp hemp]
    · simp only [hemp, if_false]
      cases hp : parseDate ts with
      | none => simp [List.isEmpty_iff.not.mp hemp, hp]
      | some v =>
        simp [List.isEmpty_iff.not.mp hemp, hp, decide_eq_true_iff]

/-! ## SubconsciousService.applyEchoFilter
(src/src/services/memory/SubconsciousService.ts lines 161-187)

`recentlyRecalled` is a JS `Set`, modelled as a duplicate-free list in
insertion order (re-adding an existing id does not move it).
`JSON.stringify` on a string is embedded with quote/backslash escaping
(control-character escapes never matter here).
-/

/-- `JSON.stringify` escaping for one character (quotes and
backslashes). -/
def jsonEscapeChar (c : Char) : Str :=
  if c = '"' then ['\\', '"']
  else if c = '\\' then ['\\', '\\']
  else [c]

/-- `JSON.stringify` of a string value. -/
def jsonStringify (s : Str) : Str :=
  lit "\"" ++ s.flatMap jsonEscapeChar ++ lit "\""

/-- The echo id of a result:
`r.message?.uuid || r.uuid || JSON.stringify(r.text || r.content)`. -/
def echoId (r : MemoryResult) : Str :=
  (jsOrS (jsOrS (r.message.bind (·.uuid)) r.uuid)
    (some (jsonStringify ((jsOrS r.text r.content).getD [])))).getD []

/-- `Set.prototype.add`: append unless already present. -/
def setAdd (buf : List Str) (x : Str) : List Str :=
  if x ∈ buf then buf else buf ++ [x]

/-- Insert the echo ids of all `rs` into the buffer, in order. -/
def echoInsertAll (buf : List Str) (rs : List MemoryResult) : List Str :=
  rs.foldl (fun b r => setAdd b (echoId r)) buf

/-- `maxEchoFilterSize` (src/src/services/memory/SubconsciousService.ts
line 18). -/
def maxEchoFilterSize : Nat := 25

/-- `SubconsciousService.applyEchoFilter`: drop non-boosted results
whose id is already recalled, record the survivors' ids, and trim the
buffer to its newest 25 entries. -/
def applyEchoFilter (buf : List Str) (results : List MemoryResult) :
    List MemoryResult × List Str :=
  let filtered := results.filter (fun r => r.boosted || !(decide (echoId r ∈ buf)))
  let buf1 := echoInsertAll buf filtered
  let buf2 :=
    if maxEchoFilterSize < buf1.length then buf1.drop (buf1.length - maxEchoFilterSize)
    else buf1
  (filtered, buf2)

/-- Members survive `setAdd`. -/
theorem mem_setAdd_of_mem {buf : List Str} {x y : Str} (h : y ∈ buf) :
    y ∈ setAdd buf x := by
  unfold setAdd
  split <;> simp [h]

/-- The added id is in `setAdd`. -/
theorem mem_setAdd_self (buf : List Str) (x : Str) : x ∈ setAdd buf x := by
  unfold setAdd
  split <;> simp_all

/-- `echoInsertAll` preserves existing members. -/
theorem mem_echoInsertAll_of_mem {buf : List Str} {y : Str}
    (rs : List MemoryResult) (h : y ∈ buf) : y ∈ echoInsertAll buf rs := by
  induction rs generalizing buf with
  | nil => exact h
  | cons r rs ih => exact ih (mem_setAdd_of_mem h)

/-- Every listed result's echo id ends up in `echoInsertAll`. -/
theorem echoId_mem_echoInsertAll (buf : List Str) {r : MemoryResult}
    {rs : List MemoryResult} (h : r ∈ rs) : echoId r ∈ echoInsertAll buf rs := by
  induction rs generalizing buf with
  | nil => cases h
  | cons a rs ih =>
    rcases List.mem_cons.mp h with h' | h'
    · subst h'
      exact mem_echoInsertAll_of_mem rs (mem_setAdd_self buf (echoId r))
    · exact ih (setAdd buf (echoId a)) h'

/-- C8: (i) a non-boosted result whose echo id is already in the buffer
is dropped; (ii) each surviving result's id is inserted into the
pre-trim buffer; (iii) the post-call buffer holds at most 25 ids and
(iv) is a suffix of the insertion-ordered pre-trim buffer (eviction is
oldest-first). -/
theorem applyEchoFilter_spec (buf : List Str) (results : List MemoryResult) :
    (∀ r, r ∈ results → echoId r ∈ buf → r.boosted = false →
        r ∉ (applyEchoFilter buf results).1) ∧
    (∀ r, r ∈ (applyEchoFilter buf results).1 →
        echoId r ∈ echoInsertAll buf (applyEchoFilter buf results).1) ∧
    (applyEchoFilter buf results).2.length ≤ 25 ∧
    (applyEchoFilter buf results).2 <:+
      echoInsertAll buf (applyEchoFilter buf results).1 := by
  refine ⟨?_, ?_, ?_, ?_⟩
  · intro r hr hid hb hmem
    have := (List.mem_filter.mp hmem).2
    simp [hb, hid] at this
  · intro r hr
    exact echoId_mem_echoInsertAll buf hr
  · show (applyEchoFilter buf results).2.length ≤ 25
    unfold applyEchoFilter
    simp only []
    split
    · rename_i h
      rw [List.length_drop]
      unfold maxEchoFilterSize at h ⊢
      omega
    · rename_i h
      unfold maxEchoFilterSize at h
      omega
  · show (applyEchoFilter buf results).2 <:+ _
    unfold applyEchoFilter
    simp only []
    split
    · exact List.drop_suffix _ _
    · exact List.suffix_refl _

/-- C8 witness: on a concrete buffer and a single already-recalled,
non-boosted result, the result is dropped, and the buffer facts hold. -/
theorem applyEchoFilter_spec_witness :
    ({ content := some (lit "x"), uuid := some (lit "a") } : MemoryResult) ∉
      (applyEchoFilter [lit "a"]
        [{ content := some (lit "x"), uuid := some (lit "a") }]).1 ∧
    (applyEchoFilter [lit "a"]
        [{ content := some (lit "x"), uuid := some (lit "a") }]).2.length ≤ 25 := by
  refine ⟨(applyEchoFilter_spec [lit "a"]
      [{ content := some (lit "x"), uuid := some (lit "a") }]).1
      _ (by simp) (by decide) rfl,
    (applyEchoFilter_spec [lit "a"]
      [{ content := some (lit "x"), uuid := some (lit "a") }]).2.2.1⟩

/-! ## utils/time-format.ts: getRelativeTimeDescription
(src/unnamed/part_001 lines 1098-1155)

Dates are epoch milliseconds (`Int`); `Math.floor` division is
`Int.fdiv`.  `Date.prototype.getHours` depends on the local timezone,
so the hour extraction enters the model as a parameter
`hourOf : Int → Nat`. -/

/-- Decimal rendering of an integer (JS template interpolation of a
number). -/
def intStr (n : Int) : Str := (toString n).toList

/-- First index of `pat` in `s` (JS `indexOf`). -/
def findSub : Str → Str → Option Nat
  | s, pat =>
    if decide (pat <+: s) then some 0
    else
      match s with
      | [] => none
      | _ :: rest => (findSub rest pat).map (· + 1)

/-- JS `String.prototype.replace` with a plain-string pattern: replace
the first occurrence only. -/
def jsReplaceOnce (s pat repl : Str) : Str :=
  match findSub s pat with
  | none => s
  | some i => s.take i ++ repl ++ s.drop (i + pat.length)

/-- The `getDayPart` helper inside `getRelativeTimeDescription`. -/
def getDayPart (hourOf : Int → Nat) (d : Int) : Str :=
  let hr := hourOf d
  if 6 ≤ hr && hr < 13 then lit "in the morning"
  else if 13 ≤ hr && hr < 20 then lit "in the afternoon"
  else if 20 ≤ hr || hr < 1 then lit "at night"
  else lit "in the early morning"

/-- `getRelativeTimeDescription` from `src/utils/time-format.ts`. -/
def getRelativeTimeDescription (nowMs : Int) (hourOf : Int → Nat)
    (dateMs : Int) : Str :=
  let diffMs := nowMs - dateMs
  let diffSec := Int.fdiv diffMs 1000
  let diffMin := Int.fdiv diffSec 60
  let diffHr := Int.fdiv diffMin 60
  let diffDays := Int.fdiv diffHr 24
  let diffMonths := Int.fdiv diffDays 30
  let diffYears := Int.fdiv diffDays 365
  if diffSec < 60 then lit "just a moment ago"
  else if diffMin < 60 then
    if diffMin = 1 then lit "a minute ago"
    else if diffMin < 5 then lit "a few minutes ago"
    else lit "about " ++ intStr diffMin ++ lit " minutes ago"
  else if diffHr < 24 then
    if diffHr = 1 then lit "almost 1h ago"
    else if diffHr < 3 then lit "less than " ++ intStr (diffHr + 1) ++ lit "h ago"
    else if diffHr < 6 then lit "a few hours ago"
    else lit "this " ++
      jsReplaceOnce (jsReplaceOnce (getDayPart hourOf dateMs) (lit "in the ") [])
        (lit "at ") []
  else if diffDays = 1 then lit "yesterday " ++ getDayPart hourOf dateMs
  else if diffDays = 2 then
    lit "the day before yesterday " ++ getDayPart hourOf dateMs
  else if diffDays < 7 then
    intStr diffDays ++ lit " days ago " ++ getDayPart hourOf dateMs
  else if diffDays < 14 then lit "last week"
  else if diffDays < 30 then intStr (Int.fdiv diffDays 7) ++ lit " weeks ago"
  else if diffMonths < 12 then
    if diffMonths = 1 then lit "1 month ago"
    else if diffMonths < 11 then intStr diffMonths ++ lit " months ago"
    else lit "almost a year ago"
  else if diffYears = 1 then
    -- both operands are nonnegative here, so JS % agrees with emod
    if 9 < diffMonths % 12 then lit "almost 2 years ago"
    else lit "a year and a few months ago"
  else if diffYears < 5 then
    if 9 < diffMonths % 12 then
      lit "almost " ++ intStr (diffYears + 1) ++ lit " years ago"
    else
      intStr diffYears ++ lit " years ago" ++
        (if 1 ≤ diffMonths % 12 then lit " or so" else [])
  else lit "about " ++ intStr diffYears ++ lit " years ago"

/-- Relative time of a possibly invalid date (`NaN` fails every
comparison in `getRelativeTimeDescription`, so an invalid date falls
through every branch to the final template). -/
def relTimeOpt (nowMs : Int) (hourOf : Int → Nat) : Option Int → Str
  | some d => getRelativeTimeDescription nowMs hourOf d
  | none => lit "about NaN years ago"

/-! ## SubconsciousService.getFlashback
(src/src/services/memory/SubconsciousService.ts lines 239-506)

The per-turn pipeline after seed extraction.  External behaviours enter
as parameters of the environment: the graph search results (already
tagged with `_sourceQuery`), the JS date parser, `Date.now()`, the local
hour extraction, the `Math.random`-driven priority sort (an arbitrary
reordering function), and the rewrite LLM (`prompt ↦ response.text`,
`none` = null text, outer `none` = no agent).
-/

/-- Inputs and ambient effects of one `getFlashback` call. -/
structure FlashbackEnv where
  searchOutcomes : List (Str × List MemoryResult × List MemoryResult)
  oldestContext : Option Int
  parseDate : Str → Option Int
  nowMs : Int
  hourOf : Int → Nat
  sortFn : List MemoryResult → List MemoryResult
  agent : Option (Str → Option Str)
  rewriteMemories : Bool
  echoBuf : List Str
  soulContext : Option Str
  storyContext : Option Str
  currentPrompt : Str

/-- The dedupe id `res.message?.uuid || res.uuid || res.content` of the
result-collection loop. -/
def dedupeId (r : MemoryResult) : Option Str :=
  jsOrS (jsOrS (r.message.bind (·.uuid)) r.uuid) r.content

/-- One step of the collection loop: push the result unless its id is
falsy or already seen. -/
def dedupeStep (acc : List MemoryResult × List Str) (r : MemoryResult) :
    List MemoryResult × List Str :=
  match dedupeId r with
  | none => acc
  | some id =>
    if id ≠ [] ∧ id ∉ acc.2 then (acc.1 ++ [r], acc.2 ++ [id]) else acc

/-- `allResults`: nodes then facts of each query in order, deduplicated
by `(uuid || content)` across all queries. -/
def dedupeResults
    (outs : List (Str × List MemoryResult × List MemoryResult)) :
    List MemoryResult :=
  (outs.foldl (fun acc o => (o.2.1 ++ o.2.2).foldl dedupeStep acc) ([], [])).1

/-- Strip every `\[TIMESTAMP:[^\]]+\]` occurrence (global replace with
`""`).  The fuel argument equals the initial length, which bounds the
number of steps since every step consumes at least one character. -/
def stripTimestampTagsAux : Nat → Str → Str
  | 0, s => s
  | fuel + 1, s =>
    match timestampTagAt s with
    | some cap => stripTimestampTagsAux fuel (s.drop (12 + cap.length))
    | none =>
      match s with
      | [] => []
      | c :: rest => c :: stripTimestampTagsAux fuel rest

/-- `content.replace(/\[TIMESTAMP:[^\]]+\]/g, "")`. -/
def stripTimestampTags (s : Str) : Str := stripTimestampTagsAux s.length s

/-- `[a-z0-9]` (the characters KEPT by
`.replace(/[^a-z0-9]/g, "")`). -/
def isLowerAlnum (c : Char) : Bool :=
  ('a' ≤ c && c ≤ 'z') || ('0' ≤ c && c ≤ '9')

/-- The 30-character near-duplicate key:
`content.toLowerCase().replace(/[^a-z0-9]/g, "").substring(0, 30)`. -/
def normalizedKey (content : Str) : Str :=
  ((lcStr content).filter isLowerAlnum).take 30

/-- `r._sourceQuery?.toLowerCase().includes("fact") ?? false`. -/
def resIsFact (r : MemoryResult) : Bool :=
  match r.sourceQuery with
  | some q => jsIncludes (lcStr q) (lit "fact")
  | none => false

/-- `r._sourceQuery || "General Context"`. -/
def resQueryGroup (r : MemoryResult) : Str :=
  (jsOrS r.sourceQuery (some (lit "General Context"))).getD []

/-- `new Date(r.timestamp || r.message?.created_at ||
r.message?.createdAt || Date.now())` — `none` is an invalid date. -/
def selFinalDate (parseDate : Str → Option Int) (nowMs : Int)
    (r : MemoryResult) : Option Int :=
  match jsOrS (jsOrS r.timestamp (r.message.bind (·.created_at)))
      (r.message.bind (·.createdAt)) with
  | some s => parseDate s
  | none => some nowMs

/-- One selected memory, as pushed into `groupedMemories`. -/
structure SelMemory where
  content : Str
  date : Option Int
  relativeTime : Str
  isFact : Bool
deriving DecidableEq, Repr

/-- State of the selection loop: the insertion-ordered `groupedMemories`
map, the `seenContent` set, and `totalSelected`. -/
structure SelState where
  groups : List (Str × List SelMemory)
  seenContent : List Str
  totalSelected : Nat
deriving DecidableEq, Repr

/-- Append a memory to its `Map` group, preserving insertion order of
groups. -/
def pushGroup : List (Str × List SelMemory) → Str → SelMemory →
    List (Str × List SelMemory)
  | [], k, m => [(k, [m])]
  | (k', ms) :: rest, k, m =>
    if k' = k then (k', ms ++ [m]) :: rest
    else (k', ms) :: pushGroup rest k m

/-- The content considered by the selection loop:
`(r.message?.content || r.text || r.content || "")` with the
`[TIMESTAMP:...]` tags stripped and trimmed. -/
def selContent (r : MemoryResult) : Str :=
  jsTrim (stripTimestampTags (resContent r))

/-- The JSON-body skip: `content.startsWith("{") &&
content.endsWith("}")`. -/
def selSkipJson (content : Str) : Bool :=
  decide (lit "\x7b" <+: content) && decide (lit "\x7d" <:+ content)

/-- The record pushed into `groupedMemories` for an accepted result. -/
def selMemoryOf (env : FlashbackEnv) (r : MemoryResult) : SelMemory :=
  ⟨selContent r,
   selFinalDate env.parseDate env.nowMs r,
   relTimeOpt env.nowMs env.hourOf (selFinalDate env.parseDate env.nowMs r),
   resIsFact r⟩

/-- One iteration of the selection loop of `getFlashback` (lines
345-378).  The `break` at `totalSelected >= 10` is modelled as a skip,
which is equivalent because the state never changes once the bound is
reached. -/
def selectStep (env : FlashbackEnv) (st : SelState) (r : MemoryResult) :
    SelState :=
  if 10 ≤ st.totalSelected then st
  else if selSkipJson (selContent r) then st
  else if normalizedKey (selContent r) = [] ∨
      normalizedKey (selContent r) ∈ st.seenContent then st
  else
    { groups := pushGroup st.groups (resQueryGroup r) (selMemoryOf env r),
      seenContent := st.seenContent ++ [normalizedKey (selContent r)],
      totalSelected := st.totalSelected + 1 }

/-- The full selection loop over the priority-sorted results. -/
def selectMemories (env : FlashbackEnv) (rs : List MemoryResult) : SelState :=
  rs.foldl (selectStep env) ⟨[], [], 0⟩

/-- `query.match(/\((.*?)\)/)`: capture of the leftmost parenthesized
run (a JS `.` does not cross newlines). -/
def parenCapture : Str → Option Str
  | [] => none
  | c :: rest =>
    if c = '(' then
      let cap := rest.takeWhile (fun x => x ≠ ')' && x ≠ '\n')
      if (rest.drop cap.length).head? == some ')' then some cap
      else parenCapture rest
    else parenCapture rest

/-- `.replace(/\.\.\.$/, "")`. -/
def stripTrailingDots (s : Str) : Str :=
  if decide (lit "..." <:+ s) then s.take (s.length - 3) else s

/-- The display query: the first parenthesized capture (if truthy) with
a trailing ellipsis removed, else the raw query. -/
def displayQueryOf (q : Str) : Str :=
  match parenCapture q with
  | some cap => if cap = [] then q else stripTrailingDots cap
  | none => q

/-- `` `--- PENSAR EN "${displayQuery}" ME RECUERDA QUE ---` ``. -/
def groupHeaderOf (q : Str) : Str :=
  lit "--- PENSAR EN \"" ++ displayQueryOf q ++ lit "\" ME RECUERDA QUE ---"

/-- The chronological comparator `a.date.getTime() - b.date.getTime()`
(an invalid date compares equal, as NaN comparator results are treated
as 0). -/
def dateLt : Option Int → Option Int → Bool
  | some a, some b => a < b
  | _, _ => false

/-- Stable insertion into a chronologically sorted list. -/
def insertChrono (m : SelMemory) : List SelMemory → List SelMemory
  | [] => [m]
  | x :: xs => if dateLt x.date m.date then x :: insertChrono m xs else m :: x :: xs

/-- `memories.sort((a, b) => a.date.getTime() - b.date.getTime())`: a
stable sort by date (JS array sort is stable). -/
def sortMemsChrono : List SelMemory → List SelMemory
  | [] => []
  | m :: ms => insertChrono m (sortMemsChrono ms)

/-- `groupLines`: the group header followed by the chronologically
sorted `- [relativeTime] content` bullets (lines 396-407). -/
def rawGroupLines (q : Str) (ms : List SelMemory) : List Str :=
  groupHeaderOf q ::
    (sortMemsChrono ms).map (fun m =>
      lit "- [" ++ m.relativeTime ++ lit "] " ++ m.content)

/-- `lines.join("\n")`. -/
def joinNl (ls : List Str) : Str := List.intercalate (lit "\n") ls

/-- `text.split("\n")`. -/
def splitNlAux (s : Str) (acc : Str) : List Str :=
  match s with
  | [] => [acc.reverse]
  | c :: rest =>
    if c = '\n' then acc.reverse :: splitNlAux rest []
    else splitNlAux rest (c :: acc)

/-- `text.split("\n")`. -/
def splitNl (s : Str) : List Str := splitNlAux s []

/-- The output-line filter of the rewrite (lines 438-448): keep only
list-marker lines or lines mentioning `reminds me` / `recuerda que`. -/
def keepRewrittenLine (l : Str) : Bool :=
  let t := jsTrim l
  decide (lit "-" <+: t) || decide (lit "*" <+: t) ||
    decide (lit "•" <+: t) || decide (lit "---" <+: t) ||
    jsIncludes (lcStr t) (lit "reminds me") ||
    jsIncludes (lcStr t) (lit "recuerda que")

/-- `${soulContext ? ... : ""}` section of the translation prompt. -/
def soulSection : Option Str → Str
  | some s =>
    if s.isEmpty then []
    else lit "\n=== YOUR UNIQUE PERSONA (SOUL) ===\n" ++ s ++ lit "\n"
  | none => []

/-- `${storyContext ? ... : ""}` section of the translation prompt. -/
def storySection : Option Str → Str
  | some s =>
    if s.isEmpty then []
    else lit "\n=== YOUR ONGOING NARRATIVE (STORY) ===\n" ++ s ++ lit "\n"
  | none => []

/-- The per-group `translationPrompt` template (lines 409-430). -/
def translationPrompt (env : FlashbackEnv) (groupHeader displayQuery : Str)
    (groupLines : List Str) : Str :=
  lit "Convert the following database notes into personal, first-person memories for a specific search topic.\n" ++
  lit "You are the AI. subconsciously remembering your past interactions with the user.\n" ++
  lit "CRITICAL: Write the memories in the EXACT SAME LANGUAGE as the CURRENT USER MESSAGE below.\n\n" ++
  lit "FORMATTING RULES:\n" ++
  lit "1. Preserve the grouping header: \"" ++ groupHeader ++
    lit "\" but translate the header into a natural transition, like \"" ++
    displayQuery ++ lit " reminds me that...\" or \"Thinking about " ++
    displayQuery ++ lit ", I remember...\".\n" ++
  lit "2. Under the header, rewrite the memories as a bulleted list format, one memory per line.\n" ++
  lit "3. The raw memories include fuzzy relative timestamps like [hace 2 semanas] or [yesterday morning]. Incorporate them naturally into each sentence rather than keeping them as bracketed labels.\n\n" ++
  lit "AS SUBCONCIOUS AI, FOLLOW THESE STRICT CONTENT RULES — NEVER break these:\n" ++
  lit "1. DO NOT REPLY TO THE USER. DO NOT ADD CONVERSATIONAL RESPONSES. ONLY OUTPUT THE HEADER AND THE BULLETED MEMORIES.\n" ++
  lit "2. Do NOT invent or infer ANY fact, action, method, or context that is not EXPLICITLY stated in the RAW MEMORIES below.\n" ++
  lit "3. Do NOT add sensory details like \"I heard\", \"I saw\", \"I felt\" unless that is literally written in the source.\n" ++
  lit "4. If the source says \"the user spoke\", write \"the user spoke\" — do NOT say \"I heard you speak\".\n" ++
  lit "5. Only rephrase style and point-of-view (1st person). Keep ALL facts strictly sourced from the raw text.\n\n" ++
  soulSection env.soulContext ++ storySection env.storyContext ++ lit "\n" ++
  lit "CURRENT USER MESSAGE (Detect language from this):\n\"" ++
    env.currentPrompt ++ lit "\"\n\n" ++
  lit "RAW MEMORIES:\n" ++ joinNl groupLines

/-- One group rewrite (lines 432-457): a truthy trimmed response is
line-filtered; a null, empty, or whitespace-only response falls back to
the raw group lines. -/
def rewriteGroup (agent : Str → Option Str) (prompt : Str)
    (groupLines : List Str) : Str :=
  match agent prompt with
  | some t =>
    if (jsTrim t).isEmpty then joinNl groupLines
    else joinNl ((splitNl t).filter keepRewrittenLine)
  | none => joinNl groupLines

/-- The rewrite branch: rewrite each group, drop blank group outputs,
join with blank lines. -/
def renderRewrite (env : FlashbackEnv) (agent : Str → Option Str)
    (groups : List (Str × List SelMemory)) : Str :=
  let rewrittenGroups := groups.map (fun g =>
    let lines := rawGroupLines g.1 g.2
    rewriteGroup agent
      (translationPrompt env (groupHeaderOf g.1) (displayQueryOf g.1) lines)
      lines)
  List.intercalate (lit "\n\n")
    (rewrittenGroups.filter (fun t => !(jsTrim t).isEmpty))

/-- The deterministic fallback lines for one group (lines 466-489). -/
def fallbackGroupLines (q : Str) (ms : List SelMemory) : List Str :=
  [lit "---",
   lit "* Thinking about \"" ++ displayQueryOf q ++ lit "\" reminds me that:"] ++
  (sortMemsChrono ms).map (fun m =>
    lit "  - [" ++ m.relativeTime ++ lit "] " ++ m.content)

/-- The fallback branch (no agent, or rewriting disabled). -/
def renderFallback (groups : List (Str × List SelMemory)) : Str :=
  joinNl (groups.flatMap (fun g => fallbackGroupLines g.1 g.2))

/-- `` `\n---\n[SUBCONSCIOUS RESONANCE]\n` ``. -/
def resonanceHeadStr : Str := lit "\n---\n[SUBCONSCIOUS RESONANCE]\n"

/-- `` `\n---\n` ``. -/
def resonanceTailStr : Str := lit "\n---\n"

/-- The `rewrittenLines` variable: the rewrite branch when an agent is
available and rewriting is enabled, the deterministic fallback
otherwise. -/
def rewrittenLinesOf (env : FlashbackEnv)
    (groups : List (Str × List SelMemory)) : Str :=
  match env.agent with
  | some agent =>
    if env.rewriteMemories then renderRewrite env agent groups
    else renderFallback groups
  | none => renderFallback groups

/-- The results surviving the horizon and echo filters
(`afterEcho`). -/
def afterEchoOf (env : FlashbackEnv) : List MemoryResult :=
  (applyEchoFilter env.echoBuf
    (applyMemoryHorizon env.parseDate (dedupeResults env.searchOutcomes)
      env.oldestContext)).1

/-- `SubconsciousService.getFlashback` from the parallel search results
onward. -/
def getFlashback (env : FlashbackEnv) : Str :=
  if (dedupeResults env.searchOutcomes).isEmpty then []
  else if (afterEchoOf env).isEmpty then []
  else
    resonanceHeadStr ++
      rewrittenLinesOf env
        (selectMemories env (env.sortFn (afterEchoOf env))).groups ++
      resonanceTailStr

/-- C2 counterexample input: a single retrieved memory whose content is
a JSON body, so the selection loop discards everything. -/
def c2env : FlashbackEnv :=
  { searchOutcomes := [(lit "q", [{ content := some (lit "\x7b\x7d") }], [])],
    oldestContext := none,
    parseDate := fun _ => none,
    nowMs := 0,
    hourOf := fun _ => 0,
    sortFn := id,
    agent := none,
    rewriteMemories := true,
    echoBuf := [],
    soulContext := none,
    storyContext := none,
    currentPrompt := lit "hi" }

/-- C2: FALSE as stated.  When the retrieval survives the horizon and
echo filters but every memory is discarded during selection (here by the
JSON-body skip), `getFlashback` returns the delimiters around an EMPTY
body — a string that is neither `""` nor a match of
`^\n---\n\[SUBCONSCIOUS RESONANCE\]\n[\s\S]+\n---\n$`. -/
theorem getFlashback_shape_cex :
    getFlashback c2env ≠ [] ∧
    ¬ ∃ body : Str, body ≠ [] ∧
        getFlashback c2env = resonanceHeadStr ++ body ++ resonanceTailStr := by
  have hval : getFlashback c2env = resonanceHeadStr ++ resonanceTailStr := by
    decide
  constructor
  · rw [hval]; decide
  · rintro ⟨body, hne, heq⟩
    rw [hval] at heq
    have hlen := congrArg List.length heq
    simp only [List.length_append] at hlen
    exact hne (List.length_eq_zero.mp (by omega))

/-- C2 (amended): every `getFlashback` return value is either `""` or
the delimiters around a possibly empty body, i.e. it matches
`^\n---\n\[SUBCONSCIOUS RESONANCE\]\n[\s\S]*\n---\n$` (the body is empty
exactly when every retrieved memory is discarded during selection and
rendering). -/
theorem getFlashback_shape (env : FlashbackEnv) :
    getFlashback env = [] ∨
      ∃ body : Str,
        getFlashback env = resonanceHeadStr ++ body ++ resonanceTailStr := by
  by_cases h1 : (dedupeResults env.searchOutcomes).isEmpty
  · left
    simp [getFlashback, h1]
  · by_cases h2 : (afterEchoOf env).isEmpty
    · left
      simp [getFlashback, h1, h2]
    · right
      refine ⟨rewrittenLinesOf env
        (selectMemories env (env.sortFn (afterEchoOf env))).groups, ?_⟩
      simp [getFlashback, h1, h2]

/-- Sum of the group sizes of the `groupedMemories` map. -/
def groupsSizeSum (gs : List (Str × List SelMemory)) : Nat :=
  (gs.map (fun g => g.2.length)).sum

/-- `pushGroup` grows the total size by exactly one. -/
theorem groupsSizeSum_pushGroup (gs : List (Str × List SelMemory))
    (k : Str) (m : SelMemory) :
    groupsSizeSum (pushGroup gs k m) = groupsSizeSum gs + 1 := by
  induction gs with
  | nil => simp [pushGroup, groupsSizeSum]
  | cons g gs ih =>
    rw [pushGroup]
    split
    · simp [groupsSizeSum]
      omega
    · simp only [groupsSizeSum, List.map_cons, List.sum_cons] at ih ⊢
      omega

/-- One selection step preserves the loop invariant. -/
theorem selectStep_invariant (env : FlashbackEnv) (st : SelState)
    (r : MemoryResult) (h1 : groupsSizeSum st.groups = st.totalSelected)
    (h2 : st.totalSelected ≤ 10) :
    groupsSizeSum (selectStep env st r).groups =
        (selectStep env st r).totalSelected ∧
      (selectStep env st r).totalSelected ≤ 10 := by
  unfold selectStep
  split
  · exact ⟨h1, h2⟩
  · rename_i hlt
    split
    · exact ⟨h1, h2⟩
    · split
      · exact ⟨h1, h2⟩
      · constructor
        · show groupsSizeSum (pushGroup st.groups (resQueryGroup r)
            (selMemoryOf env r)) = st.totalSelected + 1
          rw [groupsSizeSum_pushGroup, h1]
        · show st.totalSelected + 1 ≤ 10
          omega

/-- The selection loop invariant: the group sizes sum to
`totalSelected`, which never exceeds 10. -/
theorem selectMemories_invariant (env : FlashbackEnv)
    (rs : List MemoryResult) :
    ∀ st : SelState, groupsSizeSum st.groups = st.totalSelected →
      st.totalSelected ≤ 10 →
      groupsSizeSum (rs.foldl (selectStep env) st).groups =
          (rs.foldl (selectStep env) st).totalSelected ∧
        (rs.foldl (selectStep env) st).totalSelected ≤ 10 := by
  induction rs with
  | nil => intro st h1 h2; exact ⟨h1, h2⟩
  | cons r rs ih =>
    intro st h1 h2
    rw [List.foldl_cons]
    have h := selectStep_invariant env st r h1 h2
    exact ih _ h.1 h.2

/-- C5 (amended): the selection step accepts at most 10 results in
total across all queries, and consequently each `_sourceQuery` group
holds at most 10 memories (there is NO per-group cap of 5 in the
code). -/
theorem selection_caps (env : FlashbackEnv) (rs : List MemoryResult) :
    (selectMemories env rs).totalSelected ≤ 10 ∧
    ∀ g, g ∈ (selectMemories env rs).groups → g.2.length ≤ 10 := by
  have h := selectMemories_invariant env rs ⟨[], [], 0⟩ (by rfl) (by decide)
  refine ⟨h.2, fun g hg => ?_⟩
  have hle : g.2.length ≤ groupsSizeSum (selectMemories env rs).groups := by
    have : g.2.length ∈ ((selectMemories env rs).groups.map
        (fun g => g.2.length)) := List.mem_map_of_mem _ hg
    exact List.single_le_sum (fun _ _ => Nat.zero_le _) _ this
  calc g.2.length ≤ groupsSizeSum (selectMemories env rs).groups := hle
    _ = (selectMemories env rs).totalSelected := h.1
    _ ≤ 10 := h.2

/-- C5 witness environment. -/
def c5wenv : FlashbackEnv :=
  { searchOutcomes := [],
    oldestContext := none,
    parseDate := fun _ => none,
    nowMs := 0,
    hourOf := fun _ => 0,
    sortFn := id,
    agent := none,
    rewriteMemories := true,
    echoBuf := [],
    soulContext := none,
    storyContext := none,
    currentPrompt := lit "hi" }

/-- C5 witness: on a concrete two-result run the total stays within 10
and the concrete head group stays within 10 bullets. -/
theorem selection_caps_witness :
    (selectMemories c5wenv [{ content := some (lit "one") },
        { content := some (lit "two") }]).totalSelected ≤ 10 ∧
    ((selectMemories c5wenv [{ content := some (lit "one") },
        { content := some (lit "two") }]).groups.getD 0
      (lit "General Context", [])).2.length ≤ 10 := by
  refine ⟨(selection_caps c5wenv [{ content := some (lit "one") },
      { content := some (lit "two") }]).1, ?_⟩
  exact (selection_caps c5wenv [{ content := some (lit "one") },
      { content := some (lit "two") }]).2 _ (by decide)

/-- Counts the bullet lines of a rendered block. -/
def bulletCount (s : Str) : Nat :=
  ((splitNl s).filter (fun l => decide (lit "- [" <+: jsTrim l))).length

/-- C5 counterexample input: six distinct memories all tagged with the
same `_sourceQuery`. -/
def c5env : FlashbackEnv :=
  { searchOutcomes := [(lit "q",
      [{ content := some (lit "alpha"), sourceQuery := some (lit "q") },
       { content := some (lit "bravo"), sourceQuery := some (lit "q") },
       { content := some (lit "charlie"), sourceQuery := some (lit "q") },
       { content := some (lit "delta"), sourceQuery := some (lit "q") },
       { content := some (lit "echo"), sourceQuery := some (lit "q") },
       { content := some (lit "foxtrot"), sourceQuery := some (lit "q") }],
      [])],
    oldestContext := none,
    parseDate := fun _ => none,
    nowMs := 0,
    hourOf := fun _ => 0,
    sortFn := id,
    agent := none,
    rewriteMemories := true,
    echoBuf := [],
    soulContext := none,
    storyContext := none,
    currentPrompt := lit "hi" }

/-- The selection state of the C5 counterexample run. -/
def c5selected : SelState :=
  selectMemories c5env (c5env.sortFn (afterEchoOf c5env))

/-- C5: FALSE as stated — a single `_sourceQuery` group can contribute
more than 5 bullets: with six same-query memories the one group holds
six entries and the rendered block carries six bullet lines. -/
theorem selection_caps_cex :
    (c5selected.groups.map (fun g => g.2.length)) = [6] ∧
    bulletCount (getFlashback c5env) = 6 := by
  decide

/-! ## ConsolidationService.updateNarrativeStory
(src/unnamed/part_001 lines 132-255)

External pieces enter as parameters of `ConsEnv`: the LLM
(`agent.complete`, `prompt ↦ response.text`), `buildStoryPrompt` (the
`story-prompt-builder.js` module is not under src/), `toISOString`,
`estimateTokens` (external package), and `Date.now()`.  Message
timestamps are epoch milliseconds; `m.timestamp ?? m.created_at`
collapses to one field, and the `m.body || m.text || m.content ||
m.episode_body` chain (with array parts pre-joined) collapses to one
text field. -/

/-- Ambient capabilities of the consolidation engine. -/
structure ConsEnv where
  agent : Str → Option Str
  buildStoryPrompt : Str → Str → Str → Bool → Str
  isoOfMs : Int → Str
  estimateTokens : Str → Nat
  nowMs : Int

/-- One message of an array batch. -/
structure ConsMsg where
  timestamp : Option Int := none
  role : Option Str := none
  text : Option Str := none
deriving DecidableEq, Repr

/-- The `oldMessages` argument: an array of messages or an
already-formatted transcript string. -/
inductive Batch
  | arr (ms : List ConsMsg)
  | str (transcript : Str)
deriving DecidableEq, Repr

/-- One transcript line `[iso] role: text`, or `none` for heartbeats
(lines 145-162). -/
def consMsgLine (env : ConsEnv) (m : ConsMsg) : Option Str :=
  let text := m.text.getD []
  if isHeartbeatMessage text then none
  else
    some (lit "[" ++ env.isoOfMs (m.timestamp.getD env.nowMs) ++ lit "] " ++
      (jsOrS m.role (some (lit "unknown"))).getD [] ++ lit ": " ++ text)

/-- The transcript handed to the story prompt. -/
def transcriptOf (env : ConsEnv) : Batch → Str
  | .arr ms => joinNl (ms.filterMap (consMsgLine env))
  | .str t => t

/-- JS `"...".split(/\s+/)`: split on maximal whitespace runs, keeping
empty edge pieces.  The fuel equals the initial length (every step
consumes at least one character). -/
def jsSplitWsAux : Nat → Str → Str → List Str
  | 0, s, acc => [acc.reverse ++ s]
  | _ + 1, [], acc => [acc.reverse]
  | fuel + 1, c :: rest, acc =>
    if isWsChar c then acc.reverse :: jsSplitWsAux fuel (rest.dropWhile isWsChar) []
    else jsSplitWsAux fuel rest (c :: acc)

/-- JS `"...".split(/\s+/)`. -/
def jsSplitWs (s : Str) : List Str := jsSplitWsAux s.length s []

/-- The compression prompt template (lines 195-210), with
`MAX_STORY_WORDS = 4000`. -/
def compressionPrompt (wc : Nat) (newStory : Str) : Str :=
  lit "You are a narrative editor. You have a first-person autobiography that has grown too long.\n" ++
  lit "Your task is to compress it to under 4000 words while preserving the most transcendental moments.\n\n" ++
  lit "### CURRENT STORY (" ++ lit (toString wc) ++ lit " words):\n" ++
  newStory ++ lit "\n\n" ++
  lit "### YOUR INSTRUCTIONS:\n" ++
  lit "1. Keep the VOICE and STYLE intact (first person, reflective, personal).\n" ++
  lit "2. Preserve all chapter headers with dates and times.\n" ++
  lit "3. Condense each chapter: keep only the most meaningful reflections and key events.\n" ++
  lit "4. Remove redundant details, but maintain the emotional arc of the relationship.\n" ++
  lit "5. Ensure the compressed story flows naturally and reads as a cohesive autobiography.\n" ++
  lit "6. Target length: under 4000 words.\n\n" ++
  lit "### COMPRESSED STORY:\n(Provide the compressed autobiography)"

/-- The prompt of the main completion call (line 168):
`buildStoryPrompt({identityContext: identityContext || default,
transcript, currentStory: currentStory || "", isBootstrap})`. -/
def storyPromptOf (env : ConsEnv) (batch : Batch) (currentStory : Str)
    (identityContext : Option Str) : Str :=
  env.buildStoryPrompt
    ((jsOrS identityContext
      (some (lit "You are a helpful and soulful AI assistant."))).getD [])
    (transcriptOf env batch) currentStory ((jsTrim currentStory).isEmpty)

/-- `let maxTimestamp = anchorTimestamp || 0`, then, for array batches
only, the fold `if (t > maxTimestamp) maxTimestamp = t` over
`new Date(m.timestamp ?? m.created_at ?? 0).getTime()` (lines
225-231). -/
def maxTimestampOf (anchor : Option Int) : Batch → Int
  | .arr ms => ms.foldl (fun acc m => max acc (m.timestamp.getD 0)) (anchor.getD 0)
  | .str _ => anchor.getD 0

/-- Smallest offset of a `-->` on the current line (the non-greedy
`.*?-->` cannot cross a newline). -/
def findCloseComment : Str → Option Nat
  | [] => none
  | c :: rest =>
    if decide (lit "-->" <+: (c :: rest : Str)) then some 0
    else if c = '\n' then none
    else (findCloseComment rest).map (· + 1)

/-- Length of a `/<!-- LAST_PROCESSED:.*?-->\n*/` match anchored at the
start of `s` (`"<!-- LAST_PROCESSED:"` has 20 characters). -/
def lastProcessedMatchLen (s : Str) : Option Nat :=
  if decide (lit "<!-- LAST_PROCESSED:" <+: s) then
    match findCloseComment (s.drop 20) with
    | some k =>
      some (20 + k + 3 + ((s.drop (20 + k + 3)).takeWhile (fun c => c = '\n')).length)
    | none => none
  else none

/-- `newStory.replace(/<!-- LAST_PROCESSED:.*?-->\n*\/g, "")` (fuel =
initial length; every step consumes at least one character). -/
def stripLastProcessedAux : Nat → Str → Str
  | 0, s => s
  | fuel + 1, s =>
    match lastProcessedMatchLen s with
    | some len => stripLastProcessedAux fuel (s.drop len)
    | none =>
      match s with
      | [] => []
      | c :: rest => c :: stripLastProcessedAux fuel rest

/-- Remove every existing `LAST_PROCESSED` comment. -/
def stripLastProcessed (s : Str) : Str := stripLastProcessedAux s.length s

/-- Result of one `updateNarrativeStory` call: the returned story and,
when the Story file was replaced, the header anchor (ms, when positive)
and the exact content written. -/
structure UpdateResult where
  story : Str
  written : Option (Option Int × Str)
deriving DecidableEq, Repr

/-- `const rawStory = response?.text || ""` for the main completion
call. -/
def rawStoryOf (env : ConsEnv) (batch : Batch) (currentStory : Str)
    (identityContext : Option Str) : Str :=
  (env.agent (storyPromptOf env batch currentStory identityContext)).getD []

/-- `newStory` after the optional compression pass (lines 184-221): a
story over 4000 words is compressed, an empty compression response
falls back to the uncompressed text. -/
def newStoryOf (env : ConsEnv) (batch : Batch) (currentStory : Str)
    (identityContext : Option Str) : Str :=
  let raw := rawStoryOf env batch currentStory identityContext
  if 4000 < (jsSplitWs raw).length then
    (jsOrS (env.agent (compressionPrompt (jsSplitWs raw).length raw))
      (some raw)).getD []
  else raw

/-- The `contentToWrite` with a fresh header at `maxTs`. -/
def anchoredContent (env : ConsEnv) (maxTs : Int) (newStory : Str) : Str :=
  lit "<!-- LAST_PROCESSED: " ++ env.isoOfMs maxTs ++ lit " -->\n\n" ++
    jsTrim (stripLastProcessed newStory)

/-- `ConsolidationService.updateNarrativeStory`. -/
def updateNarrativeStory (env : ConsEnv) (batch : Batch)
    (currentStory : Str) (identityContext : Option Str)
    (anchor : Option Int) : UpdateResult :=
  match batch with
  | .arr [] => ⟨currentStory, none⟩
  | _ =>
    if newStoryOf env batch currentStory identityContext ≠ [] ∧
        newStoryOf env batch currentStory identityContext ≠ currentStory then
      if 0 < maxTimestampOf anchor batch then
        ⟨newStoryOf env batch currentStory identityContext,
          some (some (maxTimestampOf anchor batch),
            anchoredContent env (maxTimestampOf anchor batch)
              (newStoryOf env batch currentStory identityContext))⟩
      else
        ⟨newStoryOf env batch currentStory identityContext,
          some (none, newStoryOf env batch currentStory identityContext)⟩
    else ⟨currentStory, none⟩

/-! ## ConsolidationService.checkAndConsolidate — pending-log path
(src/unnamed/part_001 lines 313-467, after the bootstrap branches)

The model covers the path taken for an existing, non-new Story: parse
the anchor, check the pending status against the threshold, read the
pending transcript (or the graph fallback, a parameter), consolidate,
reset. -/

/-- Capture of `/<!-- LAST_PROCESSED: (.*?) -->/` anchored at the start
of `s`: the characters before the first ` -->` on the line
(`"<!-- LAST_PROCESSED: "` has 21 characters). -/
def headerCaptureAt (s : Str) : Option Str :=
  if decide (lit "<!-- LAST_PROCESSED: " <+: s) then
    captureUpToClose (s.drop 21)
  else none
where
  captureUpToClose : Str → Option Str
    | [] => none
    | c :: rest =>
      if decide (lit " -->" <+: (c :: rest : Str)) then some []
      else if c = '\n' then none
      else (captureUpToClose rest).map (c :: ·)

/-- Leftmost capture of `/<!-- LAST_PROCESSED: (.*?) -->/`. -/
def storyHeaderCapture : Str → Option Str
  | [] => none
  | c :: rest =>
    match headerCaptureAt (c :: rest) with
    | some cap => some cap
    | none => storyHeaderCapture rest

/-- `lastUpdate` for an existing non-new story (lines 329-351): the
parsed header anchor, else the file mtime. -/
def lastUpdateOf (parseDate : Str → Option Int) (storyContent : Str)
    (mtimeMs : Int) : Int :=
  match storyHeaderCapture storyContent with
  | some cap => (parseDate cap).getD mtimeMs
  | none => mtimeMs

/-- The effect of one `checkAndConsolidate` run on the pending files,
plus the `updateNarrativeStory` result when consolidation fired. -/
structure ConsolidateOutcome where
  update : Option UpdateResult
  pendingAfter : PendingFiles
deriving DecidableEq, Repr

/-- `checkAndConsolidate` for an existing non-new Story (lines
413-463).  `graphTranscript` is the transcript the
`graph.getEpisodesSince` fallback would yield when the log file is
missing. -/
def checkAndConsolidateLoaded (env : ConsEnv) (parseDate : Str → Option Int)
    (storyContent : Str) (mtimeMs : Int) (pending : PendingFiles)
    (graphTranscript : Str) (identityContext : Option Str)
    (tokenThreshold : Nat) : ConsolidateOutcome :=
  let lastUpdate := lastUpdateOf parseDate storyContent mtimeMs
  let status := getPendingStatus pending
  if status.tokens = 0 ∧ status.messages = 0 then ⟨none, pending⟩
  else if tokenThreshold ≤ status.tokens then
    let transcript :=
      match pending.logFile with
      | some l => l
      | none => graphTranscript
    if (jsTrim transcript).isEmpty then ⟨none, pending⟩
    else
      ⟨some (updateNarrativeStory env (.str transcript) storyContent
          identityContext (some lastUpdate)),
        resetPendingStatus pending⟩
  else ⟨none, pending⟩

/-- Upper bound: the max-fold is at least its seed. -/
theorem foldl_max_le_seed (ms : List ConsMsg) (a : Int) :
    a ≤ ms.foldl (fun acc m => max acc (m.timestamp.getD 0)) a := by
  induction ms generalizing a with
  | nil => exact le_refl a
  | cons m ms ih => exact le_trans (le_max_left _ _) (ih (max a (m.timestamp.getD 0)))

/-- Upper bound: the max-fold dominates every member. -/
theorem foldl_max_le_mem (ms : List ConsMsg) (a : Int) (m : ConsMsg)
    (h : m ∈ ms) :
    m.timestamp.getD 0 ≤ ms.foldl (fun acc m => max acc (m.timestamp.getD 0)) a := by
  induction ms generalizing a with
  | nil => cases h
  | cons x xs ih =>
    rcases List.mem_cons.mp h with h' | h'
    · subst h'
      exact le_trans (le_max_right _ _) (foldl_max_le_seed xs _)
    · exact ih _ h'

/-- C1 (amended): when a call to `updateNarrativeStory` writes the
Story file, the `LAST_PROCESSED` header carries `maxTimestamp` exactly
when it is positive; `maxTimestamp` is the maximum of the caller's
anchor and the ARRAY batch timestamps, but for a pre-formatted
transcript STRING batch (the `checkAndConsolidate` pending-log path,
which passes the old `lastUpdate` as anchor) it is the anchor alone, so
the header does NOT track the batch entries' timestamps there. -/
theorem updateNarrativeStory_anchor (env : ConsEnv) (batch : Batch)
    (cur : Str) (idc : Option Str) (anchor : Option Int)
    (w : Option Int × Str)
    (h : (updateNarrativeStory env batch cur idc anchor).written = some w) :
    (∀ t, w.1 = some t → 0 < t ∧ t = maxTimestampOf anchor batch) ∧
    (w.1 = none → maxTimestampOf anchor batch ≤ 0) ∧
    (∀ transcript, batch = .str transcript →
      maxTimestampOf anchor batch = anchor.getD 0) ∧
    (∀ ms, batch = .arr ms →
      anchor.getD 0 ≤ maxTimestampOf anchor batch ∧
      ∀ m ∈ ms, m.timestamp.getD 0 ≤ maxTimestampOf anchor batch) := by
  refine ⟨?_, ?_, ?_, ?_⟩
  · intro t hw
    unfold updateNarrativeStory at h
    split at h
    · exact absurd h (by simp)
    · split at h
      · split at h
        · rename_i hpos
          rw [Option.some_inj] at h
          rw [← h] at hw
          simp only [] at hw
          rw [Option.some_inj] at hw
          exact ⟨hw ▸ hpos, hw.symm⟩
        · rename_i hpos
          rw [Option.some_inj] at h
          rw [← h] at hw
          simp at hw
      · exact absurd h (by simp)
  · intro hw
    unfold updateNarrativeStory at h
    split at h
    · exact absurd h (by simp)
    · split at h
      · split at h
        · rename_i hpos
          rw [Option.some_inj] at h
          rw [← h] at hw
          simp at hw
        · rename_i hpos
          omega
      · exact absurd h (by simp)
  · intro transcript hb
    subst hb
    rfl
  · intro ms hb
    subst hb
    exact ⟨foldl_max_le_seed ms _, fun m hm => foldl_max_le_mem ms _ m hm⟩

/-- A concrete environment for the C1 counterexample and witness:
the LLM always answers `"new story"`, ISO rendering is decimal. -/
def c1env : ConsEnv :=
  { agent := fun _ => some (lit "new story"),
    buildStoryPrompt := fun _ _ _ _ => [],
    isoOfMs := intStr,
    estimateTokens := List.length,
    nowMs := 0 }

/-- C1 counterexample date parser: the story header `"A"` parses to 5
ms, the pending entry timestamp `"B"` parses to 10 ms. -/
def c1parse (s : Str) : Option Int :=
  if s = lit "A" then some 5 else if s = lit "B" then some 10 else none

/-- The C1 counterexample story on disk: anchored at 5 ms. -/
def c1story : Str := lit "<!-- LAST_PROCESSED: A -->\n\nold story"

/-- The C1 counterexample pending files: one tracked entry, timestamped
`"B"` (10 ms), with 6000 pending tokens. -/
def c1pending : PendingFiles :=
  ⟨some ⟨1, 6000⟩, some (pendingEntry (lit "B") (lit "hello"))⟩

/-- The C1 counterexample consolidation run. -/
def c1outcome : ConsolidateOutcome :=
  checkAndConsolidateLoaded c1env c1parse c1story 99 c1pending [] none 5000

/-- C1: FALSE as stated.  The pending-log consolidation passes the
transcript as a pre-formatted string with `anchor = lastUpdate` (5 ms),
and `updateNarrativeStory` never inspects a string batch for
timestamps: the written header anchor is 5 even though the only batch
entry is timestamped 10. -/
theorem updateNarrativeStory_anchor_cex :
    (c1outcome.update.map (fun u => u.written.map Prod.fst)) =
      some (some (some 5)) ∧
    c1parse (lit "B") = some 10 ∧ (5 : Int) ≠ 10 := by
  refine ⟨by decide, by decide, by decide⟩

/-- C1 witness: a successful array-batch call with one message at 7 ms
and no anchor writes header anchor 7, which is positive, equals
`maxTimestampOf`, and dominates the batch timestamps. -/
theorem updateNarrativeStory_anchor_witness :
    (0 < (7 : Int) ∧ (7 : Int) =
      maxTimestampOf none (Batch.arr [{ timestamp := some 7 }])) ∧
    maxTimestampOf none (Batch.arr [{ timestamp := some 7 }]) =
      maxTimestampOf none (Batch.arr [{ timestamp := some 7 }]) := by
  refine ⟨(updateNarrativeStory_anchor c1env
      (Batch.arr [{ timestamp := some 7 }]) (lit "old") none none
      (some 7, lit "<!-- LAST_PROCESSED: 7 -->\n\nnew story")
      (by decide)).1 7 rfl, rfl⟩

/-- C6 concrete environment: the LLM always answers the empty
string. -/
def c6env : ConsEnv :=
  { agent := fun _ => some [],
    buildStoryPrompt := fun _ _ _ _ => [],
    isoOfMs := intStr,
    estimateTokens := List.length,
    nowMs := 0 }

/-- C6: if the completion text is null or empty, then (a)
`updateNarrativeStory` performs no Story write and returns the current
story unchanged, and (b) the per-group rewrite of `getFlashback` falls
back to the raw grouped bullet lines (the group header plus the
`- [relative-time] content` bullets). -/
theorem completionEmpty_fallback (env : ConsEnv) (batch : Batch)
    (cur : Str) (idc : Option Str) (anchor : Option Int)
    (agentF : Str → Option Str) (prompt : Str) (q : Str)
    (ms : List SelMemory)
    (hstory : env.agent (storyPromptOf env batch cur idc) = none ∨
      env.agent (storyPromptOf env batch cur idc) = some [])
    (hrw : agentF prompt = none ∨ agentF prompt = some []) :
    (updateNarrativeStory env batch cur idc anchor).story = cur ∧
    (updateNarrativeStory env batch cur idc anchor).written = none ∧
    rewriteGroup agentF prompt (rawGroupLines q ms) =
      joinNl (rawGroupLines q ms) := by
  have hraw : rawStoryOf env batch cur idc = [] := by
    unfold rawStoryOf
    rcases hstory with h | h <;> rw [h] <;> rfl
  have hnew : newStoryOf env batch cur idc = [] := by
    unfold newStoryOf
    rw [hraw]
    rfl
  refine ⟨?_, ?_, ?_⟩
  · cases batch with
    | arr ms' =>
      cases ms' with
      | nil => rfl
      | cons m rest => simp [updateNarrativeStory, hnew]
    | str t => simp [updateNarrativeStory, hnew]
  · cases batch with
    | arr ms' =>
      cases ms' with
      | nil => rfl
      | cons m rest => simp [updateNarrativeStory, hnew]
    | str t => simp [updateNarrativeStory, hnew]
  · rcases hrw with h | h
    · simp [rewriteGroup, h]
    · simp [rewriteGroup, h, jsTrim]

/-- C6 witness: with an always-empty LLM, a concrete transcript batch
leaves the concrete story unchanged, and a null rewrite response yields
exactly the raw group lines. -/
theorem completionEmpty_fallback_witness :
    (updateNarrativeStory c6env (Batch.str (lit "t")) (lit "story")
        none none).story = lit "story" ∧
    rewriteGroup (fun _ => none) [] (rawGroupLines (lit "q") []) =
      joinNl (rawGroupLines (lit "q") []) := by
  have h := completionEmpty_fallback c6env (Batch.str (lit "t"))
    (lit "story") none none (fun _ => none) [] (lit "q") []
    (Or.inr rfl) (Or.inl rfl)
  exact ⟨h.1, h.2.2⟩

/-! ## ConsolidationService.syncGlobalNarrative — locking
(src/unnamed/part_001 lines 579-760)

The model keeps what the claim is about: the lock-file guard (lines
587-603), the lock acquisition (lines 606-612), and the `finally`
release (lines 754-759).  The body between them (anchor parsing,
session scanning, chunked `updateNarrativeStory` calls) is abstracted
as `work`, the list of Story writes it would perform once the lock is
held — irrelevant on the skip path, which returns before any of it
runs. -/

/-- `NARRATIVE_LOCK_MAX_AGE_MS` (line 10). -/
def narrativeLockMaxAgeMs : Int := 120000

/-- Observable effect of one `syncGlobalNarrative` call: the Story
writes performed and the lock file remaining on disk afterwards. -/
structure SyncOutcome where
  storyWrites : List (Option Int × Str)
  lockAfter : Option Str
deriving DecidableEq, Repr

/-- `ConsolidationService.syncGlobalNarrative`, lock protocol only.
`lockStatMtime` is the mtime of an existing lock file (`none` =
missing).  Note the `finally` clause runs on EVERY path, including the
fresh-lock early return, so `lockAfter` is always `none`. -/
def syncGlobalNarrative (lockStatMtime : Option Int) (nowMs : Int)
    (work : List (Option Int × Str)) : SyncOutcome :=
  match lockStatMtime with
  | some mtime =>
    if nowMs - mtime < narrativeLockMaxAgeMs then ⟨[], none⟩
    else ⟨work, none⟩
  | none => ⟨work, none⟩

/-- C3 evidence: at a 10-second-old lock (mtime 90000, now 100000) the
call performs no Story write, as claimed, but the `finally` clause has
unlinked the other process's lock: the lock file is gone, contradicting
the no-op claim. -/
theorem syncGlobalNarrative_lockHeld_bug :
    (syncGlobalNarrative (some 90000) 100000 [(some 1, lit "w")]).storyWrites
        = [] ∧
    (syncGlobalNarrative (some 90000) 100000
        [(some 1, lit "w")]).lockAfter = none := by
  decide

/-! ## subconscious-agent.ts
(src/src/agents/pi-embedded-runner/subconscious-agent.ts lines 33-176)

Stream behaviour is embedded as data: a stream either throws or yields
a list of classified chunks (`error` events, `content`/`text` chunks
that replace the collected text, delta text that appends, and inert
chunks).  A thrown exception anywhere inside the `try` block is an
`Except.error` of the body; the surrounding `try/catch` of `complete`
maps it to `{ text: "" }`. -/

/-- One stream chunk, classified by the branch `consumeStream` takes
for it. -/
inductive Chunk
  | errorEv (msg : Str)
  | contentC (s : Str)
  | textC (s : Str)
  | deltaText (s : Str)
  | other
deriving DecidableEq, Repr

/-- `consumeStream`'s result. -/
structure StreamResult where
  text : Str
  streamError : Option Str
deriving DecidableEq, Repr

/-- `consumeStream` (lines 33-76): collect text, break on the first
error event. -/
def consumeStream : List Chunk → Str → StreamResult
  | [], collected => ⟨collected, none⟩
  | c :: rest, collected =>
    match c with
    | .errorEv m => ⟨collected, some m⟩
    | .contentC s => consumeStream rest s
    | .textC s => consumeStream rest s
    | .deltaText s =>
      consumeStream rest (if s.isEmpty then collected else collected ++ s)
    | .other => consumeStream rest collected

/-- A `streamSimple` call either throws or yields chunks. -/
inductive StreamOutcome
  | throws
  | chunks (cs : List Chunk)
deriving DecidableEq, Repr

/-- Environment of one `complete` call: whether `getApiKey` rejects,
the key it returns, the Copilot provider test, and the primary and
failover stream behaviours. -/
structure AgentEnv where
  keyThrows : Bool
  apiKey : Option Str
  isCopilot : Bool
  primary : StreamOutcome
  failover : StreamOutcome
deriving DecidableEq, Repr

/-- The body of `complete` inside the `try` (lines 87-166): `Except` is
the exception effect. -/
def completeBody (env : AgentEnv) : Except Unit Str :=
  if env.keyThrows then .error ()
  else
    match env.apiKey with
    | none => .ok []
    | some _ =>
      match env.primary with
      | .throws => .error ()
      | .chunks cs =>
        if (consumeStream cs []).streamError.isSome && env.isCopilot &&
            decide ((consumeStream cs []).text.length = 0) then
          match env.failover with
          | .throws => .error ()
          | .chunks cs2 => .ok (consumeStream cs2 []).text
        else .ok (consumeStream cs []).text

/-- `SubconsciousAgent.complete`: the outer `try/catch` returns
`{ text: fullText }`, and `fullText` is still `""` on any caught
exception. -/
def subAgentComplete (env : AgentEnv) : Str :=
  match completeBody env with
  | .ok t => t
  | .error _ => []

/-- C10: `complete` never rejects — every environment, including a
missing API key, a thrown exception anywhere in the body, or an error
event from either stream, produces a plain string result, and any
internal failure produces exactly `""`. -/
theorem subAgentComplete_spec (env : AgentEnv) :
    (∀ e : Unit, completeBody env = Except.error e → subAgentComplete env = []) ∧
    (env.keyThrows = true → subAgentComplete env = []) ∧
    (env.apiKey = none → subAgentComplete env = []) ∧
    (env.primary = StreamOutcome.throws → subAgentComplete env = []) ∧
    ((completeBody env).isOk = true →
      completeBody env = Except.ok (subAgentComplete env)) := by
  refine ⟨?_, ?_, ?_, ?_, ?_⟩
  · intro e h
    simp [subAgentComplete, h]
  · intro h
    simp [subAgentComplete, completeBody, h]
  · intro h
    by_cases hk : env.keyThrows
    · simp [subAgentComplete, completeBody, hk]
    · simp [subAgentComplete, completeBody, hk, h]
  · intro h
    by_cases hk : env.keyThrows
    · simp [subAgentComplete, completeBody, hk]
    · cases ha : env.apiKey with
      | none => simp [subAgentComplete, completeBody, hk, ha]
      | some k => simp [subAgentComplete, completeBody, hk, ha, h]
  · intro h
    cases hb : completeBody env with
    | error e => rw [hb] at h; exact absurd h (fun hc => Bool.noConfusion hc)
    | ok t => simp [subAgentComplete, hb]

/-- C10 witness: a missing API key and a rejected key lookup both
resolve to `""` on concrete environments. -/
theorem subAgentComplete_spec_witness :
    subAgentComplete ⟨false, none, false, .chunks [], .chunks []⟩ = [] ∧
    subAgentComplete ⟨true, some (lit "k"), true, .chunks [], .chunks []⟩ = [] :=
  ⟨(subAgentComplete_spec _).2.2.1 rfl, (subAgentComplete_spec _).2.1 rfl⟩

/-- C4 counterexample input: `"abcabcabcabc"`. -/
def c4input : Str := lit "abcabcabcabc"

/-- C4: `truncateRepetitive` is NOT idempotent: on `"abcabcabcabc"` the
first pass truncates to `"abcabc"` (chunk length 6), and a second pass
truncates that to `"abc"`. -/
theorem truncateRepetitive_not_idempotent :
    truncateRepetitive (truncateRepetitive c4input) ≠
      truncateRepetitive c4input ∧
    truncateRepetitive c4input = lit "abcabc" ∧
    truncateRepetitive (truncateRepetitive c4input) = lit "abc" := by
  decide

/-- C4 (amended): the double application of `truncateRepetitive` is a
prefix of the single application (the second pass may truncate further,
so idempotence fails, but it never does anything beyond cutting a
suffix). -/
theorem truncateRepetitive_twice_prefix (s : Str) :
    ∃ t, truncateRepetitive (truncateRepetitive s) ++ t =
      truncateRepetitive s :=
  truncateRepetitive_take (truncateRepetitive s)

end Mindbot
